import Mathlib

/-!
# Verification of `geourl.py`

A shallow embedding of the coordinate-extraction core of `geourl.py`:
tokenizer (`_break_apart`), pattern matcher (`PatternMatcher`), coordinate
builder / confidence scorer (`CoordinateBuilder`), and result selector
(`ParseLocation`), together with theorems settling the specification claims.

Modelling conventions:
* Python `decimal.Decimal` values produced by the tokenizer are modelled
  exactly as a mantissa together with the number of digits after the decimal
  point (`Dec`); the numeric value is the rational `mant / 10 ^ places`.
  Decimal comparisons are exact value comparisons, performed here on
  cross-multiplied integers so that they compute.  The context-precision
  rounding that Python applies to `/` results is a presentation-level,
  process-wide setting (spec §4.4, §6) and is abstracted: arithmetic on the
  built coordinate values is exact rational arithmetic.
* The tokenizer models the regular expressions of the source over ASCII
  (`[a-z]` with `re.I` is `a`–`z`/`A`–`Z`, `[0-9]` is the ASCII digits); the
  only metacharacter appearing in the catalog's `url_regex` fields is `.`.
* `urllib.parse.unquote` is modelled for single-byte escapes: `%XX` with two
  hex digits becomes the character with code `XX`; an invalid escape is kept
  verbatim.
-/

namespace geourl

/-- Model of a `decimal.Decimal` as produced by `_break_apart` from a literal
matching `-?[0-9]+\.?[0-9]*`: integer mantissa and number of digits after the
decimal point.  The value is `mant / 10 ^ places`, and `str(d)` contains a
`'.'` exactly when `places ≠ 0` (the tuple exponent is `-places`). -/
structure Dec where
  mant : Int
  places : Nat
deriving DecidableEq

/-- `10 ^ n` as an integer, by structural recursion so it reduces in the
kernel. -/
def tenPow : Nat → Int
  | 0 => 1
  | n + 1 => 10 * tenPow n

/-- The exact rational value of a decimal. -/
def Dec.val (d : Dec) : ℚ := (d.mant : ℚ) / ((tenPow d.places : Int) : ℚ)

/-- Exact decimal comparison `d < n` against an integer bound
(Python `dec < n`), computed on cross-multiplied integers. -/
def Dec.ltInt (d : Dec) (n : Int) : Bool := d.mant < n * tenPow d.places

/-- Exact decimal comparison `d >= n` (Python `dec >= n`). -/
def Dec.geInt (d : Dec) (n : Int) : Bool := n * tenPow d.places ≤ d.mant

/-- Exact decimal comparison `d <= n` (Python `dec <= n`). -/
def Dec.leInt (d : Dec) (n : Int) : Bool := d.mant ≤ n * tenPow d.places

/-- An element of the broken-apart input (`_break_apart`): a recognized
direction word (kept with its original characters) or a number. -/
inductive Elem where
  | word (w : List Char)
  | num (d : Dec)
deriving DecidableEq

/-- Lower-casing of a letter run (Python `str.lower()` on ASCII letters). -/
def lowerWord (w : List Char) : List Char := w.map Char.toLower

/-- The alternatives of `REGEX_KNOWN_WORDS`; the regex is anchored
(`^(...)$`), so it tests case-insensitive membership in this list. -/
def KNOWN_WORDS : List (List Char) :=
  [['n'], ['s'], ['e'], ['w'],
   "north".toList, "south".toList, "west".toList, "east".toList,
   "nord".toList, "sur".toList, "norte".toList, "sul".toList,
   "est".toList, "ouest".toList, "este".toList, "oeste".toList]

/-- `WORDS_N_NORTH_ELSE_SOUTH` from the source. -/
def WORDS_N_NORTH_ELSE_SOUTH : List (List Char) :=
  [['n'], ['s'], "north".toList, "south".toList,
   "nord".toList, "sur".toList, "norte".toList, "sul".toList]

/-- `WORDS_E_EAST_ELSE_WEST` from the source. -/
def WORDS_E_EAST_ELSE_WEST : List (List Char) :=
  [['e'], ['w'], "east".toList, "west".toList,
   "est".toList, "ouest".toList, "este".toList, "oeste".toList]

/-- The mutable mapping built by the validators (`PatternState`).  Each key of
the Python dict is an optional field; validators only ever set fields.
`lat_h`, `lat_m`, `lon_h`, `lon_m` hold integer degree/minute values (their
validators enforce integrality), `lat_s`/`lon_s` the exact seconds value, and
`lat_dec`/`lon_dec` the matched decimal (value and its decimal places, both
needed by the confidence computation). -/
structure PatternState where
  ns : Option Char := none
  ew : Option Char := none
  lat_h : Option Int := none
  lat_m : Option Int := none
  lat_s : Option ℚ := none
  lon_h : Option Int := none
  lon_m : Option Int := none
  lon_s : Option ℚ := none
  lat_dec : Option Dec := none
  lon_dec : Option Dec := none

/-- The validator-method names appearing in the pattern catalog. -/
inductive Validator where
  | north_south | east_west
  | lat_h | lat_m | lat_s | lat_m_dec
  | lon_h | lon_m | lon_s | lon_m_dec
  | lat_dec | lon_dec
deriving DecidableEq

/-- One validator step: check the element, extend the state or fail
(`PatternFail`, modelled as `none`).  Mirrors the validator methods of
`PatternMatcher`:
* `_assert_string` / `_assert_decimal` are the `Elem` case splits;
* `_assert_integer`'s test `'.' in str(element)` is `places ≠ 0`;
* the range tests are the exact decimal comparisons of the source
  (`dec < 0 or dec >= 90`, etc.);
* `to_integral(rounding=ROUND_DOWN)` truncates toward zero (`Int.tdiv`);
* `state['ns'] = 'n' if s[0] in 'n' else 's'` inspects the first character
  of the lower-cased word. -/
def applyValidator : Validator → Elem → PatternState → Option PatternState
  | .north_south, .word w, st =>
    let s := lowerWord w
    if s ∈ WORDS_N_NORTH_ELSE_SOUTH then
      some { st with ns := some (if s.headD ' ' = 'n' then 'n' else 's') }
    else none
  | .north_south, _, _ => none
  | .east_west, .word w, st =>
    let s := lowerWord w
    if s ∈ WORDS_E_EAST_ELSE_WEST then
      some { st with ew := some (if s.headD ' ' = 'e' then 'e' else 'w') }
    else none
  | .east_west, _, _ => none
  | .lat_h, .num d, st =>
    if d.places ≠ 0 then none
    else if d.ltInt 0 || d.geInt 90 then none
    else some { st with lat_h := some d.mant }
  | .lat_h, _, _ => none
  | .lat_m, .num d, st =>
    if d.places ≠ 0 then none
    else if d.ltInt 0 || d.geInt 60 then none
    else some { st with lat_m := some d.mant }
  | .lat_m, _, _ => none
  | .lat_s, .num d, st =>
    if d.ltInt 0 || d.geInt 60 then none
    else some { st with lat_s := some d.val }
  | .lat_s, _, _ => none
  | .lat_m_dec, .num d, st =>
    if d.ltInt 0 || d.geInt 60 then none
    else
      let minutes : Int := d.mant.tdiv (tenPow d.places)
      some { st with lat_m := some minutes,
                     lat_s := some ((d.val - (minutes : ℚ)) * 60) }
  | .lat_m_dec, _, _ => none
  | .lon_h, .num d, st =>
    if d.places ≠ 0 then none
    else if d.ltInt 0 || d.geInt 180 then none
    else some { st with lon_h := some d.mant }
  | .lon_h, _, _ => none
  | .lon_m, .num d, st =>
    if d.places ≠ 0 then none
    else if d.ltInt 0 || d.geInt 60 then none
    else some { st with lon_m := some d.mant }
  | .lon_m, _, _ => none
  | .lon_s, .num d, st =>
    if d.ltInt 0 || d.geInt 60 then none
    else some { st with lon_s := some d.val }
  | .lon_s, _, _ => none
  | .lon_m_dec, .num d, st =>
    if d.ltInt 0 || d.geInt 60 then none
    else
      let minutes : Int := d.mant.tdiv (tenPow d.places)
      some { st with lon_m := some minutes,
                     lon_s := some ((d.val - (minutes : ℚ)) * 60) }
  | .lon_m_dec, _, _ => none
  | .lat_dec, .num d, st =>
    if d.ltInt (-90) || d.geInt 90 then none
    else some { st with lat_dec := some d }
  | .lat_dec, _, _ => none
  | .lon_dec, .num d, st =>
    if d.leInt (-180) || d.geInt 180 then none
    else some { st with lon_dec := some d }
  | .lon_dec, _, _ => none

/-- An entry of the pattern catalog (`PatternDefinition`): URL-trigger regex,
family kind, the definition string, and its validator list
(`definition.split()`). -/
structure PatternDefinition where
  url_regex : String
  pattern_type : String
  definition : String
  validators : List Validator

/-- The loop of `PatternMatcher.match`: run the validators against consecutive
elements starting at `idx`; fail if any validator fails or the elements run
out. -/
def runMatch : List Validator → List Elem → Nat → PatternState → Option PatternState
  | [], _, _, st => some st
  | v :: vs, elements, idx, st =>
    if h : idx < elements.length then
      match applyValidator v (elements.get ⟨idx, h⟩) st with
      | some st2 => runMatch vs elements (idx + 1) st2
      | none => none
    else none

/-- `PatternMatcher.match`: try the pattern against `elements` starting at
`start_offset`, beginning from the empty state. -/
def PatternMatcher.matchPattern (pd : PatternDefinition) (elements : List Elem)
    (start_offset : Nat) : Option PatternState :=
  runMatch pd.validators elements start_offset {}

/-- The pattern catalog `PATTERNS`. -/
def PATTERNS : List PatternDefinition :=
  [⟨"labs.strava.com", "degrees", "lon_dec lat_dec", [.lon_dec, .lat_dec]⟩,
   ⟨"strava.com", "degrees", "lon_dec lat_dec", [.lon_dec, .lat_dec]⟩,
   ⟨".", "compass", "north_south lat_h lat_m lat_s east_west lon_h lon_m lon_s",
    [.north_south, .lat_h, .lat_m, .lat_s, .east_west, .lon_h, .lon_m, .lon_s]⟩,
   ⟨".", "compass", "lat_h lat_m lat_s north_south lon_h lon_m lon_s east_west",
    [.lat_h, .lat_m, .lat_s, .north_south, .lon_h, .lon_m, .lon_s, .east_west]⟩,
   ⟨".", "compass", "north_south lat_h lat_m_dec east_west lon_h lon_m_dec",
    [.north_south, .lat_h, .lat_m_dec, .east_west, .lon_h, .lon_m_dec]⟩,
   ⟨".", "compass", "lat_h lat_m_dec north_south lon_h lon_m_dec east_west",
    [.lat_h, .lat_m_dec, .north_south, .lon_h, .lon_m_dec, .east_west]⟩,
   ⟨".", "degrees", "lat_dec lon_dec", [.lat_dec, .lon_dec]⟩,
   ⟨".", "degrees", "north_south lat_dec east_west lon_dec",
    [.north_south, .lat_dec, .east_west, .lon_dec]⟩,
   ⟨".", "degrees", "lat_dec north_south lon_dec east_west",
    [.lat_dec, .north_south, .lon_dec, .east_west]⟩]

/-- A built coordinate with its confidence (`Coordinate`).  Latitude and
longitude are kept as exact rational values (the source stores their decimal
string rendering). -/
structure Coordinate where
  latitude : ℚ
  longitude : ℚ
  confidence : Nat
  pattern_type : String
  pattern_definition : String

/-- `CoordinateBuilder._get_decimal_places`: `max 0 (-exponent)` of the decimal
tuple; the tuple exponent of a matched literal is `-places`, so this is
`places`.  (The sign flip `-1 * abs(...)` that may precede this call preserves
the exponent, so taking it from the matched decimal is exact.) -/
def CoordinateBuilder.get_decimal_places (d : Dec) : Nat := d.places

/-- `CoordinateBuilder.build`: convert extracted values to a `Coordinate`.
The compass family computes `h + m/60 + s/60/60` per axis, negated when the
direction is `'s'` (resp. `'w'`), with fixed confidence `1000`; the degrees
family takes the matched decimals, forces them negative (`-1 * abs(...)`) when
an overriding direction word was matched, and scores
`_get_decimal_places(lat) * _get_decimal_places(lon)`.  A state lacking a
field the branch reads would raise `KeyError` in Python; that is modelled as
`none` (unreachable from the catalog's patterns). -/
def CoordinateBuilder.build (pd : PatternDefinition) (values : PatternState) :
    Option Coordinate :=
  if pd.pattern_type = "compass" then
    match values.lat_h, values.lat_m, values.lat_s, values.ns,
        values.lon_h, values.lon_m, values.lon_s, values.ew with
    | some lah, some lam, some las, some ns, some loh, some lom, some los, some ew =>
      let lat0 : ℚ := (lah : ℚ) + (lam : ℚ) / 60 + las / 60 / 60
      let latitude := if ns = 's' then -lat0 else lat0
      let lon0 : ℚ := (loh : ℚ) + (lom : ℚ) / 60 + los / 60 / 60
      let longitude := if ew = 'w' then -lon0 else lon0
      some ⟨latitude, longitude, 1000, pd.pattern_type, pd.definition⟩
    | _, _, _, _, _, _, _, _ => none
  else if pd.pattern_type = "degrees" then
    match values.lat_dec, values.lon_dec with
    | some latd, some lond =>
      let latitude : ℚ := if values.ns = some 's' then -(|latd.val|) else latd.val
      let longitude : ℚ := if values.ew = some 'w' then -(|lond.val|) else lond.val
      let confidence := CoordinateBuilder.get_decimal_places latd *
        CoordinateBuilder.get_decimal_places lond
      some ⟨latitude, longitude, confidence, pd.pattern_type, pd.definition⟩
    | _, _ => none
  else none

/-- Value of a run of ASCII digits (most significant first). -/
def natOfDigits (ds : List Char) : Nat :=
  ds.foldl (fun n c => 10 * n + (c.toNat - '0'.toNat)) 0

/-- One step of `_break_apart`'s scan at character `c` followed by `cs`:
the token starting at `c` (if any) and the rest of the input.  Mirrors
`re.finditer(r'([a-z]+)|(-?[0-9]+\.?[0-9]*)', ..., re.I)`: a maximal letter
run, kept only when it matches `REGEX_KNOWN_WORDS`; or a number — optional
minus, maximal digits, optionally a dot with maximal digits; any other
character is skipped.  A `-` not followed by a digit matches nothing. -/
def lexStep (c : Char) (cs : List Char) : Option Elem × List Char :=
  if c.isAlpha then
    let w := c :: cs.takeWhile Char.isAlpha
    let rest := cs.dropWhile Char.isAlpha
    (if lowerWord w ∈ KNOWN_WORDS then some (.word w) else none, rest)
  else if c.isDigit || (c = '-' && (cs.headD ' ').isDigit) then
    let neg := c = '-'
    let body := if neg then cs else c :: cs
    let intDigits := body.takeWhile Char.isDigit
    let afterInt := body.dropWhile Char.isDigit
    let hasDot := afterInt.headD ' ' = '.'
    let fracDigits := if hasDot then afterInt.tail.takeWhile Char.isDigit else []
    let rest := if hasDot then afterInt.tail.dropWhile Char.isDigit else afterInt
    let mag : Int := (natOfDigits intDigits * 10 ^ fracDigits.length +
      natOfDigits fracDigits : Nat)
    (some (.num ⟨if neg then -mag else mag, fracDigits.length⟩), rest)
  else (none, cs)

/-- The scanning loop of `_break_apart`.  `fuel` bounds the number of steps;
the entry point passes the input length, which always suffices because every
step consumes at least the leading character. -/
def lexAux : Nat → List Char → List Elem
  | 0, _ => []
  | _ + 1, [] => []
  | fuel + 1, c :: cs =>
    match lexStep c cs with
    | (some e, rest) => e :: lexAux fuel rest
    | (none, rest) => lexAux fuel rest

/-- `ParseLocation._break_apart`: the input as a sequence of recognized words
and numbers. -/
def break_apart (geo_string : String) : List Elem :=
  lexAux geo_string.toList.length geo_string.toList

/-- Is `c` an ASCII hex digit (for `%`-escapes)? -/
def isHexChar (c : Char) : Bool :=
  c.isDigit || ('a' ≤ c && c ≤ 'f') || ('A' ≤ c && c ≤ 'F')

/-- Value of an ASCII hex digit. -/
def hexVal (c : Char) : Nat :=
  if c.isDigit then c.toNat - '0'.toNat
  else if 'a' ≤ c && c ≤ 'f' then c.toNat - 'a'.toNat + 10
  else c.toNat - 'A'.toNat + 10

/-- `urllib.parse.unquote` on the character list: `%XX` with two hex digits
becomes the character with code `XX`; anything else is copied verbatim. -/
def unquoteAux : List Char → List Char
  | [] => []
  | c :: a :: b :: rest2 =>
    if c = '%' && isHexChar a && isHexChar b then
      Char.ofNat (16 * hexVal a + hexVal b) :: unquoteAux rest2
    else c :: unquoteAux (a :: b :: rest2)
  | c :: rest => c :: unquoteAux rest

/-- `urllib.parse.unquote`. -/
def unquote (geo_string : String) : String :=
  String.mk (unquoteAux geo_string.toList)

/-- Does the pattern match at the head of `s`?  `'.'` in the pattern matches
any character except a newline; every other pattern character is a literal
(the only metacharacter occurring in the catalog's `url_regex` fields is
`.`). -/
def matchHere : List Char → List Char → Bool
  | [], _ => true
  | _ :: _, [] => false
  | p :: ps, c :: cs => (if p = '.' then c != '\n' else p == c) && matchHere ps cs

/-- `re.search`: does the pattern match starting at some position of `s`? -/
def reSearch (pat : List Char) : List Char → Bool
  | [] => matchHere pat []
  | c :: cs => matchHere pat (c :: cs) || reSearch pat cs

/-- `PatternDefinition.matches_url`: `re.search(url_regex, url)`. -/
def PatternDefinition.matches_url (pd : PatternDefinition) (url : String) : Bool :=
  reSearch pd.url_regex.toList url.toList

/-- The relation the result list is sorted by: descending confidence
(`sort(key=lambda x: x.confidence, reverse=True)`). -/
def confGe (a b : Coordinate) : Prop := b.confidence ≤ a.confidence

instance : DecidableRel confGe := fun a b => Nat.decLe b.confidence a.confidence

instance : IsTotal Coordinate confGe :=
  ⟨fun a b => Nat.le_total b.confidence a.confidence⟩

instance : IsTrans Coordinate confGe :=
  ⟨fun _ _ _ h1 h2 => Nat.le_trans h2 h1⟩

/-- The candidate list in discovery order: for every catalog pattern whose
`url_regex` matches the raw (unquoted) input, try every start offset, build a
coordinate from each successful match.  (Python's `if values:` test is dict
non-emptiness; a successful match of a catalog pattern always has a non-empty
state, since every validator records a field.) -/
def collectCandidates (geo_string : String) : List Coordinate :=
  let elements := break_apart geo_string
  PATTERNS.flatMap fun pd =>
    if pd.matches_url geo_string then
      (List.range elements.length).filterMap fun start_offset =>
        match PatternMatcher.matchPattern pd elements start_offset with
        | some values => CoordinateBuilder.build pd values
        | none => none
    else []

/-- `ParseLocation.apply_patterns`: collect all candidates, then sort them by
confidence, highest first.  Python's `list.sort` is stable, as is insertion
sort, so ties keep discovery order. -/
def apply_patterns (geo_string : String) : List Coordinate :=
  List.insertionSort confGe (collectCandidates geo_string)

/-- `ParseLocation.__init__` stores `apply_patterns(urllib.parse.unquote(s))`
in `self.result`. -/
def ParseLocation_result (geo_string : String) : List Coordinate :=
  apply_patterns (unquote geo_string)

/-- `ParseLocation.matches`: the sorted result list, or `[]` when it is empty
or its top entry has confidence `0`. -/
def ParseLocation_matches (geo_string : String) : List Coordinate :=
  match ParseLocation_result geo_string with
  | [] => []
  | c :: rest => if c.confidence = 0 then [] else c :: rest

/-- `ParseLocation.best_match`: the top entry of the sorted result list, or
`none` when the list is empty or the top entry has confidence `0`. -/
def ParseLocation_best_match (geo_string : String) : Option Coordinate :=
  match ParseLocation_result geo_string with
  | [] => none
  | c :: _ => if c.confidence = 0 then none else some c

/-- The top-level `find`. -/
def find (geo_string : String) : Option Coordinate :=
  if (ParseLocation_matches geo_string).isEmpty then none
  else ParseLocation_best_match geo_string

/-! ### Facts about the decimal model -/

theorem tenPow_eq (n : Nat) : tenPow n = 10 ^ n := by
  induction n with
  | zero => rfl
  | succ k ih => rw [tenPow, ih, pow_succ]; ring

theorem tenPow_pos (n : Nat) : 0 < tenPow n := by
  rw [tenPow_eq]; positivity

theorem tenPow_cast_pos (n : Nat) : (0 : ℚ) < ((tenPow n : Int) : ℚ) := by
  exact_mod_cast tenPow_pos n

/-- The comparison `dec < n` of the source decides exactly `value < n`. -/
theorem Dec.ltInt_iff (d : Dec) (n : Int) : d.ltInt n = true ↔ d.val < n := by
  rw [Dec.ltInt, decide_eq_true_iff, Dec.val,
    div_lt_iff₀ (tenPow_cast_pos d.places)]
  exact_mod_cast Iff.rfl

/-- The comparison `dec >= n` of the source decides exactly `n ≤ value`. -/
theorem Dec.geInt_iff (d : Dec) (n : Int) : d.geInt n = true ↔ (n : ℚ) ≤ d.val := by
  rw [Dec.geInt, decide_eq_true_iff, Dec.val,
    le_div_iff₀ (tenPow_cast_pos d.places)]
  exact_mod_cast Iff.rfl

/-- The comparison `dec <= n` of the source decides exactly `value ≤ n`. -/
theorem Dec.leInt_iff (d : Dec) (n : Int) : d.leInt n = true ↔ d.val ≤ n := by
  rw [Dec.leInt, decide_eq_true_iff, Dec.val,
    div_le_iff₀ (tenPow_cast_pos d.places)]
  exact_mod_cast Iff.rfl

/-- A decimal whose text shows no decimal point has its integer mantissa as
value. -/
theorem Dec.val_places_zero (d : Dec) (h : d.places = 0) : d.val = (d.mant : ℚ) := by
  rw [Dec.val, h]
  norm_num [tenPow]

/-- `to_integral(rounding=ROUND_DOWN)` on a nonnegative decimal: the truncated
quotient is the floor of the value. -/
theorem Dec.tdiv_floor (d : Dec) (h : (0 : ℚ) ≤ d.val) :
    0 ≤ d.mant.tdiv (tenPow d.places) ∧
      ((d.mant.tdiv (tenPow d.places) : Int) : ℚ) ≤ d.val ∧
      d.val < ((d.mant.tdiv (tenPow d.places) : Int) : ℚ) + 1 := by
  have ht : 0 < tenPow d.places := tenPow_pos d.places
  have htq : (0 : ℚ) < ((tenPow d.places : Int) : ℚ) := tenPow_cast_pos d.places
  have hm : 0 ≤ d.mant := by
    by_contra hneg
    push_neg at hneg
    have : d.val < 0 := by
      rw [Dec.val]
      apply div_neg_of_neg_of_pos _ htq
      exact_mod_cast hneg
    linarith
  have hdvd := Int.tdiv_eq_ediv hm (le_of_lt ht)
  refine ⟨Int.tdiv_nonneg hm (le_of_lt ht), ?_, ?_⟩
  · rw [Dec.val, le_div_iff₀ htq, hdvd]
    exact_mod_cast Int.ediv_mul_le d.mant (ne_of_gt ht)
  · have hlt : d.mant < (d.mant.tdiv (tenPow d.places) + 1) * tenPow d.places :=
      Int.lt_tdiv_add_one_mul_self d.mant ht
    rw [Dec.val, div_lt_iff₀ htq]
    exact_mod_cast hlt

/-! ### The matcher invariant

Every value a validator records respects its range check; this is what makes
out-of-range coordinates unconstructible. -/

/-- Ranges guaranteed for every field a validator has recorded. -/
structure StInv (st : PatternState) : Prop where
  ns : ∀ c ∈ st.ns, c = 'n' ∨ c = 's'
  ew : ∀ c ∈ st.ew, c = 'e' ∨ c = 'w'
  lat_h : ∀ z ∈ st.lat_h, 0 ≤ z ∧ z < 90
  lat_m : ∀ z ∈ st.lat_m, 0 ≤ z ∧ z < 60
  lat_s : ∀ q ∈ st.lat_s, 0 ≤ q ∧ q < 60
  lon_h : ∀ z ∈ st.lon_h, 0 ≤ z ∧ z < 180
  lon_m : ∀ z ∈ st.lon_m, 0 ≤ z ∧ z < 60
  lon_s : ∀ q ∈ st.lon_s, 0 ≤ q ∧ q < 60
  lat_dec : ∀ d ∈ st.lat_dec, -90 ≤ d.val ∧ d.val < 90
  lon_dec : ∀ d ∈ st.lon_dec, -180 < d.val ∧ d.val < 180

theorem StInv.init : StInv {} := by
  constructor <;> intro x hx <;> simp at hx

/-- A failed check `dec < lo or dec >= hi` brackets the value in
`[lo, hi)`. -/
theorem Dec.bounds_of_check {d : Dec} {lo hi : Int}
    (h : ¬(d.ltInt lo || d.geInt hi) = true) :
    (lo : ℚ) ≤ d.val ∧ d.val < (hi : ℚ) := by
  rw [Bool.or_eq_true, not_or, Dec.ltInt_iff, Dec.geInt_iff] at h
  exact ⟨le_of_not_lt h.1, lt_of_not_le h.2⟩

/-- For an integer-checked field (`places = 0`), a failed check
`dec < 0 or dec >= hi` brackets the mantissa in `[0, hi)`. -/
theorem Dec.int_bounds {d : Dec} {hi : Int} (h0 : d.places = 0)
    (h : ¬(d.ltInt 0 || d.geInt hi) = true) : 0 ≤ d.mant ∧ d.mant < hi := by
  have hb := Dec.bounds_of_check h
  rw [Dec.val_places_zero d h0] at hb
  exact ⟨by exact_mod_cast hb.1, by exact_mod_cast hb.2⟩

/-- Bounds of the minute/second decomposition of a fractional-minute field:
the truncated minutes are in `[0, 60)` and the derived seconds in
`[0, 60)`. -/
theorem Dec.mdec_bounds {d : Dec} (h : ¬(d.ltInt 0 || d.geInt 60) = true) :
    (0 ≤ d.mant.tdiv (tenPow d.places) ∧ d.mant.tdiv (tenPow d.places) < 60) ∧
      0 ≤ (d.val - ((d.mant.tdiv (tenPow d.places) : Int) : ℚ)) * 60 ∧
      (d.val - ((d.mant.tdiv (tenPow d.places) : Int) : ℚ)) * 60 < 60 := by
  have hb := Dec.bounds_of_check h
  have h0 : (0 : ℚ) ≤ d.val := by exact_mod_cast hb.1
  have h60 : d.val < 60 := by exact_mod_cast hb.2
  obtain ⟨ht0, htle, htlt⟩ := Dec.tdiv_floor d h0
  refine ⟨⟨ht0, ?_⟩, ?_, ?_⟩
  · exact_mod_cast lt_of_le_of_lt htle h60
  · nlinarith
  · nlinarith

/-- Every validator preserves the range invariant: each field it records is
within the range its checks enforced; other fields are untouched. -/
theorem applyValidator_inv {v : Validator} {e : Elem} {st st2 : PatternState}
    (h : applyValidator v e st = some st2) (hst : StInv st) : StInv st2 := by
  obtain ⟨hns, hew, hlah, hlam, hlas, hloh, hlom, hlos, hlad, hlod⟩ := hst
  cases v with
  | north_south =>
    cases e with
    | num d => simp [applyValidator] at h
    | word w =>
      simp only [applyValidator] at h
      split_ifs at h
      all_goals first
          | exact Option.noConfusion h
          | (injection h with h
             subst h
             refine ⟨?_, hew, hlah, hlam, hlas, hloh, hlom, hlos, hlad, hlod⟩
             intro c hc
             rw [Option.mem_some] at hc
             subst hc
             simp)
  | east_west =>
    cases e with
    | num d => simp [applyValidator] at h
    | word w =>
      simp only [applyValidator] at h
      split_ifs at h
      all_goals first
          | exact Option.noConfusion h
          | (injection h with h
             subst h
             refine ⟨hns, ?_, hlah, hlam, hlas, hloh, hlom, hlos, hlad, hlod⟩
             intro c hc
             rw [Option.mem_some] at hc
             subst hc
             simp)
  | lat_h =>
    cases e with
    | word w => simp [applyValidator] at h
    | num d =>
      simp only [applyValidator] at h
      split_ifs at h with h1 h2
      injection h with h
      subst h
      push_neg at h1
      refine ⟨hns, hew, ?_, hlam, hlas, hloh, hlom, hlos, hlad, hlod⟩
      intro z hz
      rw [Option.mem_some] at hz
      exact hz ▸ Dec.int_bounds h1 h2
  | lat_m =>
    cases e with
    | word w => simp [applyValidator] at h
    | num d =>
      simp only [applyValidator] at h
      split_ifs at h with h1 h2
      injection h with h
      subst h
      push_neg at h1
      refine ⟨hns, hew, hlah, ?_, hlas, hloh, hlom, hlos, hlad, hlod⟩
      intro z hz
      rw [Option.mem_some] at hz
      exact hz ▸ Dec.int_bounds h1 h2
  | lat_s =>
    cases e with
    | word w => simp [applyValidator] at h
    | num d =>
      simp only [applyValidator] at h
      split_ifs at h with h1
      injection h with h
      subst h
      have hb := Dec.bounds_of_check h1
      refine ⟨hns, hew, hlah, hlam, ?_, hloh, hlom, hlos, hlad, hlod⟩
      intro q hq
      rw [Option.mem_some] at hq
      refine hq ▸ ⟨by exact_mod_cast hb.1, by exact_mod_cast hb.2⟩
  | lat_m_dec =>
    cases e with
    | word w => simp [applyValidator] at h
    | num d =>
      simp only [applyValidator] at h
      split_ifs at h with h1
      injection h with h
      subst h
      obtain ⟨hmin, hsec⟩ := Dec.mdec_bounds h1
      refine ⟨hns, hew, hlah, ?_, ?_, hloh, hlom, hlos, hlad, hlod⟩
      · intro z hz
        rw [Option.mem_some] at hz
        exact hz ▸ hmin
      · intro q hq
        rw [Option.mem_some] at hq
        exact hq ▸ hsec
  | lon_h =>
    cases e with
    | word w => simp [applyValidator] at h
    | num d =>
      simp only [applyValidator] at h
      split_ifs at h with h1 h2
      injection h with h
      subst h
      push_neg at h1
      refine ⟨hns, hew, hlah, hlam, hlas, ?_, hlom, hlos, hlad, hlod⟩
      intro z hz
      rw [Option.mem_some] at hz
      exact hz ▸ Dec.int_bounds h1 h2
  | lon_m =>
    cases e with
    | word w => simp [applyValidator] at h
    | num d =>
      simp only [applyValidator] at h
      split_ifs at h with h1 h2
      injection h with h
      subst h
      push_neg at h1
      refine ⟨hns, hew, hlah, hlam, hlas, hloh, ?_, hlos, hlad, hlod⟩
      intro z hz
      rw [Option.mem_some] at hz
      exact hz ▸ Dec.int_bounds h1 h2
  | lon_s =>
    cases e with
    | word w => simp [applyValidator] at h
    | num d =>
      simp only [applyValidator] at h
      split_ifs at h with h1
      injection h with h
      subst h
      have hb := Dec.bounds_of_check h1
      refine ⟨hns, hew, hlah, hlam, hlas, hloh, hlom, ?_, hlad, hlod⟩
      intro q hq
      rw [Option.mem_some] at hq
      refine hq ▸ ⟨by exact_mod_cast hb.1, by exact_mod_cast hb.2⟩
  | lon_m_dec =>
    cases e with
    | word w => simp [applyValidator] at h
    | num d =>
      simp only [applyValidator] at h
      split_ifs at h with h1
      injection h with h
      subst h
      obtain ⟨hmin, hsec⟩ := Dec.mdec_bounds h1
      refine ⟨hns, hew, hlah, hlam, hlas, hloh, ?_, ?_, hlad, hlod⟩
      · intro z hz
        rw [Option.mem_some] at hz
        exact hz ▸ hmin
      · intro q hq
        rw [Option.mem_some] at hq
        exact hq ▸ hsec
  | lat_dec =>
    cases e with
    | word w => simp [applyValidator] at h
    | num d =>
      simp only [applyValidator] at h
      split_ifs at h with h1
      injection h with h
      subst h
      have hb := Dec.bounds_of_check h1
      refine ⟨hns, hew, hlah, hlam, hlas, hloh, hlom, hlos, ?_, hlod⟩
      intro d2 hd2
      rw [Option.mem_some] at hd2
      refine hd2 ▸ ⟨by exact_mod_cast hb.1, by exact_mod_cast hb.2⟩
  | lon_dec =>
    cases e with
    | word w => simp [applyValidator] at h
    | num d =>
      simp only [applyValidator] at h
      split_ifs at h with h1
      injection h with h
      subst h
      rw [Bool.or_eq_true, not_or, Dec.leInt_iff, Dec.geInt_iff] at h1
      refine ⟨hns, hew, hlah, hlam, hlas, hloh, hlom, hlos, hlad, ?_⟩
      intro d2 hd2
      rw [Option.mem_some] at hd2
      refine hd2 ▸ ⟨?_, ?_⟩
      · have := lt_of_not_le h1.1
        exact_mod_cast this
      · have := lt_of_not_le h1.2
        exact_mod_cast this

/-- The matcher loop preserves the range invariant. -/
theorem runMatch_inv {vs : List Validator} :
    ∀ {elements : List Elem} {idx : Nat} {st st2 : PatternState},
      runMatch vs elements idx st = some st2 → StInv st → StInv st2 := by
  induction vs with
  | nil =>
    intro elements idx st st2 h hst
    rw [runMatch] at h
    injection h with h
    exact h ▸ hst
  | cons v vs ih =>
    intro elements idx st st2 h hst
    rw [runMatch] at h
    split at h
    · rcases hv : applyValidator v (elements.get ⟨idx, by assumption⟩) st with _ | st3
      · rw [hv] at h
        exact Option.noConfusion h
      · rw [hv] at h
        exact ih h (applyValidator_inv hv hst)
    · exact Option.noConfusion h

/-- A successful `PatternMatcher.match` yields a state obeying the range
invariant. -/
theorem matchPattern_inv {pd : PatternDefinition} {elements : List Elem}
    {start_offset : Nat} {st : PatternState}
    (h : PatternMatcher.matchPattern pd elements start_offset = some st) :
    StInv st :=
  runMatch_inv h StInv.init

/-! ### The coordinate builder, dissected -/

/-- `build` on a compass-family pattern: the explicit coordinate produced from
a state carrying all compass fields. -/
theorem build_compass {pd : PatternDefinition} {st : PatternState}
    (hpd : pd.pattern_type = "compass") {lah lam loh lom : Int} {las los : ℚ}
    {ns ew : Char}
    (h1 : st.lat_h = some lah) (h2 : st.lat_m = some lam)
    (h3 : st.lat_s = some las) (h4 : st.ns = some ns)
    (h5 : st.lon_h = some loh) (h6 : st.lon_m = some lom)
    (h7 : st.lon_s = some los) (h8 : st.ew = some ew) :
    CoordinateBuilder.build pd st =
      some ⟨if ns = 's' then -((lah : ℚ) + (lam : ℚ) / 60 + las / 60 / 60)
              else (lah : ℚ) + (lam : ℚ) / 60 + las / 60 / 60,
            if ew = 'w' then -((loh : ℚ) + (lom : ℚ) / 60 + los / 60 / 60)
              else (loh : ℚ) + (lom : ℚ) / 60 + los / 60 / 60,
            1000, pd.pattern_type, pd.definition⟩ := by
  rw [CoordinateBuilder.build, if_pos hpd, h1, h2, h3, h4, h5, h6, h7, h8]

/-- `build` on a degrees-family pattern: the explicit coordinate produced from
a state carrying both decimal fields.  The sign is *forced* negative by an
`'s'`/`'w'` override, and the confidence is the product of the two
decimal-place counts. -/
theorem build_degrees {pd : PatternDefinition} {st : PatternState}
    (hpd : pd.pattern_type = "degrees") {latd lond : Dec}
    (h1 : st.lat_dec = some latd) (h2 : st.lon_dec = some lond) :
    CoordinateBuilder.build pd st =
      some ⟨if st.ns = some 's' then -(|latd.val|) else latd.val,
            if st.ew = some 'w' then -(|lond.val|) else lond.val,
            latd.places * lond.places, pd.pattern_type, pd.definition⟩ := by
  have hnc : ¬pd.pattern_type = "compass" := by rw [hpd]; decide
  rw [CoordinateBuilder.build, if_neg hnc, if_pos hpd, h1, h2]
  rfl

/-- Inversion of `build`: any built coordinate comes from the compass branch
or from the degrees branch, with the corresponding fields present in the
state and the corresponding value and confidence computation. -/
theorem build_inv {pd : PatternDefinition} {st : PatternState} {c : Coordinate}
    (h : CoordinateBuilder.build pd st = some c) :
    c.pattern_type = pd.pattern_type ∧ c.pattern_definition = pd.definition ∧
      ((pd.pattern_type = "compass" ∧ c.confidence = 1000 ∧
        ∃ (lah lam loh lom : Int) (las los : ℚ) (ns ew : Char),
          st.lat_h = some lah ∧ st.lat_m = some lam ∧ st.lat_s = some las ∧
          st.ns = some ns ∧ st.lon_h = some loh ∧ st.lon_m = some lom ∧
          st.lon_s = some los ∧ st.ew = some ew ∧
          c.latitude = (if ns = 's' then -((lah : ℚ) + (lam : ℚ) / 60 + las / 60 / 60)
            else (lah : ℚ) + (lam : ℚ) / 60 + las / 60 / 60) ∧
          c.longitude = (if ew = 'w' then -((loh : ℚ) + (lom : ℚ) / 60 + los / 60 / 60)
            else (loh : ℚ) + (lom : ℚ) / 60 + los / 60 / 60)) ∨
       (pd.pattern_type = "degrees" ∧
        ∃ latd lond : Dec,
          st.lat_dec = some latd ∧ st.lon_dec = some lond ∧
          c.confidence = latd.places * lond.places ∧
          c.latitude = (if st.ns = some 's' then -(|latd.val|) else latd.val) ∧
          c.longitude = (if st.ew = some 'w' then -(|lond.val|) else lond.val))) := by
  by_cases hc : pd.pattern_type = "compass"
  · rcases e1 : st.lat_h with _ | lah
    · rw [CoordinateBuilder.build, if_pos hc, e1] at h
      exact Option.noConfusion h
    rcases e2 : st.lat_m with _ | lam
    · rw [CoordinateBuilder.build, if_pos hc, e1, e2] at h
      exact Option.noConfusion h
    rcases e3 : st.lat_s with _ | las
    · rw [CoordinateBuilder.build, if_pos hc, e1, e2, e3] at h
      exact Option.noConfusion h
    rcases e4 : st.ns with _ | ns
    · rw [CoordinateBuilder.build, if_pos hc, e1, e2, e3, e4] at h
      exact Option.noConfusion h
    rcases e5 : st.lon_h with _ | loh
    · rw [CoordinateBuilder.build, if_pos hc, e1, e2, e3, e4, e5] at h
      exact Option.noConfusion h
    rcases e6 : st.lon_m with _ | lom
    · rw [CoordinateBuilder.build, if_pos hc, e1, e2, e3, e4, e5, e6] at h
      exact Option.noConfusion h
    rcases e7 : st.lon_s with _ | los
    · rw [CoordinateBuilder.build, if_pos hc, e1, e2, e3, e4, e5, e6, e7] at h
      exact Option.noConfusion h
    rcases e8 : st.ew with _ | ew
    · rw [CoordinateBuilder.build, if_pos hc, e1, e2, e3, e4, e5, e6, e7, e8] at h
      exact Option.noConfusion h
    rw [build_compass hc e1 e2 e3 e4 e5 e6 e7 e8] at h
    injection h with h
    subst h
    exact ⟨rfl, rfl, Or.inl ⟨hc, rfl, lah, lam, loh, lom, las, los, ns, ew,
      rfl, rfl, rfl, rfl, rfl, rfl, rfl, rfl, rfl, rfl⟩⟩
  · by_cases hd : pd.pattern_type = "degrees"
    · rcases e1 : st.lat_dec with _ | latd
      · rw [CoordinateBuilder.build, if_neg hc, if_pos hd, e1] at h
        exact Option.noConfusion h
      rcases e2 : st.lon_dec with _ | lond
      · rw [CoordinateBuilder.build, if_neg hc, if_pos hd, e1, e2] at h
        exact Option.noConfusion h
      rw [build_degrees hd e1 e2] at h
      injection h with h
      subst h
      exact ⟨rfl, rfl, Or.inr ⟨hd, latd, lond, rfl, rfl, rfl, rfl, rfl⟩⟩
    · rw [CoordinateBuilder.build, if_neg hc, if_neg hd] at h
      exact Option.noConfusion h

/-! ### Membership in the result list -/

/-- Every coordinate in `ParseLocation.result` was built from a pattern of the
catalog and a match state satisfying the range invariant. -/
theorem result_inv {s : String} {c : Coordinate}
    (hc : c ∈ ParseLocation_result s) :
    ∃ pd ∈ PATTERNS, ∃ st : PatternState,
      StInv st ∧ CoordinateBuilder.build pd st = some c := by
  rw [ParseLocation_result, apply_patterns, List.mem_insertionSort] at hc
  simp only [collectCandidates, List.mem_flatMap] at hc
  obtain ⟨pd, hpd, hc⟩ := hc
  refine ⟨pd, hpd, ?_⟩
  split at hc
  · simp only [List.mem_filterMap] at hc
    obtain ⟨off, _, hoff⟩ := hc
    rcases hm : PatternMatcher.matchPattern pd (break_apart (unquote s)) off with _ | st
    · rw [hm] at hoff
      exact Option.noConfusion hoff
    · rw [hm] at hoff
      exact ⟨st, matchPattern_inv hm, hoff⟩
  · exact absurd hc (List.not_mem_nil c)

/-! ### The result selector -/

/-- The sorted result list is sorted by descending confidence. -/
theorem result_sorted (s : String) :
    List.Sorted confGe (ParseLocation_result s) :=
  List.sorted_insertionSort confGe (collectCandidates (unquote s))

/-- Inserting a coordinate commutes with filtering one confidence class:
elements it passes over have strictly larger confidence. -/
theorem orderedInsert_filter_confEq (a : Coordinate) (l : List Coordinate) (k : Nat) :
    ((l.orderedInsert confGe a).filter fun c => c.confidence == k) =
      if a.confidence = k then a :: l.filter fun c => c.confidence == k
      else l.filter fun c => c.confidence == k := by
  induction l with
  | nil =>
    rw [List.orderedInsert_nil]
    split_ifs with hk
    · simp [hk]
    · simp [hk]
  | cons b l ih =>
    rw [List.orderedInsert]
    by_cases hr : confGe a b
    · rw [if_pos hr]
      split_ifs with hk
      · simp [List.filter_cons, hk]
      · simp [List.filter_cons, hk]
    · rw [if_neg hr]
      have hbk : ¬b.confidence = k ∨ ¬a.confidence = k := by
        rcases Nat.lt_or_ge a.confidence b.confidence with hlt | hge
        · by_cases hak : a.confidence = k
          · left
            omega
          · right
            exact hak
        · exact absurd hge hr
      rcases hbk with hbk | hak
      · rw [List.filter_cons_of_neg (by simpa using hbk), ih]
        split_ifs with hk
        · -- a.confidence = k, and b.confidence ≠ k, b comes before the block
          rw [List.filter_cons_of_neg (by simpa using hbk)]
        · rw [List.filter_cons_of_neg (by simpa using hbk)]
      · rw [if_neg hak] at ih ⊢
        by_cases hbk : b.confidence = k
        · rw [List.filter_cons_of_pos (by simpa using hbk),
            List.filter_cons_of_pos (by simpa using hbk), ih]
        · rw [List.filter_cons_of_neg (by simpa using hbk),
            List.filter_cons_of_neg (by simpa using hbk), ih]

/-- Stability of the sort: within one confidence class, the sorted list keeps
the discovery order. -/
theorem insertionSort_filter_confEq (l : List Coordinate) (k : Nat) :
    ((List.insertionSort confGe l).filter fun c => c.confidence == k) =
      l.filter fun c => c.confidence == k := by
  induction l with
  | nil => rfl
  | cons a l ih =>
    rw [List.insertionSort, orderedInsert_filter_confEq]
    split_ifs with hk
    · rw [ih, List.filter_cons_of_pos (by simpa using hk)]
    · rw [ih, List.filter_cons_of_neg (by simpa using hk)]

/-- `find` returns `none` exactly when the candidate list is empty or its top
entry has confidence `0`. -/
theorem find_none_iff (s : String) :
    find s = none ↔ ParseLocation_result s = [] ∨
      ∃ c, (ParseLocation_result s).head? = some c ∧ c.confidence = 0 := by
  rw [find, ParseLocation_matches, ParseLocation_best_match]
  rcases hres : ParseLocation_result s with _ | ⟨c, rest⟩
  · simp
  · by_cases h0 : c.confidence = 0
    · simp [h0]
    · simp [h0]

/-! ### Claim theorems -/

/-- C2: for every successful compass-family match state (fields `lat_h`,
`lat_m`, `lat_s`, `ns`, `lon_h`, `lon_m`, `lon_s`), the built coordinate's
latitude equals `lat_h + lat_m/60 + lat_s/3600`, multiplied by `-1` exactly
when the matched north/south direction is south, and its longitude equals
`lon_h + lon_m/60 + lon_s/3600`, multiplied by `-1` exactly when the matched
east/west direction is west. -/
theorem C2_compass_arithmetic {pd : PatternDefinition} {st : PatternState}
    {c : Coordinate} (hpd : pd.pattern_type = "compass")
    {lah lam loh lom : Int} {las los : ℚ} {ns ew : Char}
    (h1 : st.lat_h = some lah) (h2 : st.lat_m = some lam)
    (h3 : st.lat_s = some las) (h4 : st.ns = some ns)
    (h5 : st.lon_h = some loh) (h6 : st.lon_m = some lom)
    (h7 : st.lon_s = some los) (h8 : st.ew = some ew)
    (hb : CoordinateBuilder.build pd st = some c) :
    c.latitude = (if ns = 's' then (-1 : ℚ) else 1) *
      ((lah : ℚ) + (lam : ℚ) / 60 + las / 3600) ∧
    c.longitude = (if ew = 'w' then (-1 : ℚ) else 1) *
      ((loh : ℚ) + (lom : ℚ) / 60 + los / 3600) := by
  rw [build_compass hpd h1 h2 h3 h4 h5 h6 h7 h8] at hb
  injection hb with hb
  subst hb
  dsimp only
  constructor
  · split_ifs <;> ring
  · split_ifs <;> ring

/-- C2 witness: the state matched from `37 37 8 N 122 22 30 W` by the
compass pattern builds the expected signed coordinate. -/
theorem C2_compass_arithmetic_witness :
    ∃ c, CoordinateBuilder.build
        ⟨".", "compass", "lat_h lat_m lat_s north_south lon_h lon_m lon_s east_west",
         [.lat_h, .lat_m, .lat_s, .north_south, .lon_h, .lon_m, .lon_s, .east_west]⟩
        ⟨some 'n', some 'w', some 37, some 37, some 8, some 122, some 22, some 30,
         none, none⟩ = some c ∧
      c.latitude = (if 'n' = 's' then (-1 : ℚ) else 1) *
        (((37 : Int) : ℚ) + ((37 : Int) : ℚ) / 60 + (8 : ℚ) / 3600) ∧
      c.longitude = (if 'w' = 'w' then (-1 : ℚ) else 1) *
        (((122 : Int) : ℚ) + ((22 : Int) : ℚ) / 60 + (30 : ℚ) / 3600) := by
  have h := C2_compass_arithmetic
    (show PatternDefinition.pattern_type
      ⟨".", "compass", "lat_h lat_m lat_s north_south lon_h lon_m lon_s east_west",
       [.lat_h, .lat_m, .lat_s, .north_south, .lon_h, .lon_m, .lon_s, .east_west]⟩ =
      "compass" from rfl)
    (show PatternState.lat_h
      ⟨some 'n', some 'w', some 37, some 37, some 8, some 122, some 22, some 30,
       none, none⟩ = some 37 from rfl)
    rfl rfl rfl rfl rfl rfl rfl rfl
  exact ⟨_, rfl, h⟩

/-- C9: in a successful decimal-family match with a direction-word override,
a south word forces the latitude to the negative of its absolute value and a
west word forces the longitude to the negative of its absolute value (forced,
not toggled); consequently a value already carrying a `'-'` sign combined
with `'S'`/`'W'` yields the same negative result as the unsigned value
(negating the mantissa does not change `-(|value|)`). -/
theorem C9_degrees_override {pd : PatternDefinition} {st : PatternState}
    {c : Coordinate} (hpd : pd.pattern_type = "degrees") {latd lond : Dec}
    (h1 : st.lat_dec = some latd) (h2 : st.lon_dec = some lond)
    (hb : CoordinateBuilder.build pd st = some c) :
    (st.ns = some 's' → c.latitude = -(|latd.val|)) ∧
    (st.ew = some 'w' → c.longitude = -(|lond.val|)) ∧
    -(|latd.val|) = -(|(Dec.mk (-latd.mant) latd.places).val|) ∧
    -(|lond.val|) = -(|(Dec.mk (-lond.mant) lond.places).val|) := by
  rw [build_degrees hpd h1 h2] at hb
  injection hb with hb
  subst hb
  dsimp only
  refine ⟨fun hns => by rw [if_pos hns], fun hew => by rw [if_pos hew], ?_, ?_⟩
  · rw [Dec.val, Dec.val]
    push_cast
    rw [neg_div, abs_neg]
  · rw [Dec.val, Dec.val]
    push_cast
    rw [neg_div, abs_neg]

/-- C9 witness: matching `-36.1` with an `'s'` override builds latitude
`-|(-36.1)| = -36.1`, the same as the unsigned value would. -/
theorem C9_degrees_override_witness :
    ∃ c, CoordinateBuilder.build
        ⟨".", "degrees", "lat_dec north_south lon_dec east_west",
         [.lat_dec, .north_south, .lon_dec, .east_west]⟩
        ⟨some 's', some 'w', none, none, none, none, none, none,
         some ⟨-361, 1⟩, some ⟨1151, 1⟩⟩ = some c ∧
      c.latitude = -(|(Dec.mk (-361) 1).val|) ∧
      -(|(Dec.mk (-361) 1).val|) = -(|(Dec.mk (-(-361 : Int)) 1).val|) := by
  have h := C9_degrees_override
    (show PatternDefinition.pattern_type
      ⟨".", "degrees", "lat_dec north_south lon_dec east_west",
       [.lat_dec, .north_south, .lon_dec, .east_west]⟩ = "degrees" from rfl)
    (show PatternState.lat_dec
      ⟨some 's', some 'w', none, none, none, none, none, none,
       some ⟨-361, 1⟩, some ⟨1151, 1⟩⟩ = some ⟨-361, 1⟩ from rfl)
    rfl rfl
  exact ⟨_, rfl, h.1 rfl, h.2.2.1⟩

/-- C3: a decimal-family coordinate's confidence is the number of digits
after the decimal point of the latitude literal times that of the longitude
literal (`0` when there is no decimal point), and in the sorted result list a
candidate with higher confidence (a larger combined decimal-digit product)
is ranked strictly above one with lower confidence. -/
theorem C3_decimal_confidence :
    (∀ (pd : PatternDefinition) (st : PatternState) (c : Coordinate)
       (latd lond : Dec), pd.pattern_type = "degrees" →
       st.lat_dec = some latd → st.lon_dec = some lond →
       CoordinateBuilder.build pd st = some c →
       c.confidence = CoordinateBuilder.get_decimal_places latd *
         CoordinateBuilder.get_decimal_places lond) ∧
    (∀ (s : String) (i j : Fin (ParseLocation_result s).length),
       ((ParseLocation_result s).get j).confidence <
         ((ParseLocation_result s).get i).confidence → (i : Nat) < (j : Nat)) := by
  constructor
  · intro pd st c latd lond hpd h1 h2 hb
    rw [build_degrees hpd h1 h2] at hb
    injection hb with hb
    subst hb
    rfl
  · intro s i j hlt
    by_contra hij
    push_neg at hij
    rcases Nat.lt_or_ge (j : Nat) (i : Nat) with hji | hji
    · have := (result_sorted s).rel_get_of_lt (a := j) (b := i) hji
      rw [confGe] at this
      omega
    · have hji2 : (j : Nat) = (i : Nat) := le_antisymm hij hji
      have : j = i := Fin.ext hji2
      subst this
      omega

/-- C3 witness: the pair `1.5 2.5` (one decimal digit each) gets confidence
`1 * 1` and is ranked above the integer pairs of the same input. -/
theorem C3_decimal_confidence_witness :
    ∃ c, CoordinateBuilder.build
        ⟨".", "degrees", "lat_dec lon_dec", [.lat_dec, .lon_dec]⟩
        ⟨none, none, none, none, none, none, none, none,
         some ⟨15, 1⟩, some ⟨25, 1⟩⟩ = some c ∧
      c.confidence = CoordinateBuilder.get_decimal_places ⟨15, 1⟩ *
        CoordinateBuilder.get_decimal_places ⟨25, 1⟩ ∧
      ∀ (h0 : 0 < (ParseLocation_result "1.5 2.5 3 4").length)
        (h1 : 1 < (ParseLocation_result "1.5 2.5 3 4").length),
        ((ParseLocation_result "1.5 2.5 3 4").get ⟨1, h1⟩).confidence <
          ((ParseLocation_result "1.5 2.5 3 4").get ⟨0, h0⟩).confidence →
        (0 : Nat) < 1 :=
by
  have h := C3_decimal_confidence.1
    ⟨".", "degrees", "lat_dec lon_dec", [.lat_dec, .lon_dec]⟩
    ⟨none, none, none, none, none, none, none, none, some ⟨15, 1⟩, some ⟨25, 1⟩⟩
    _ ⟨15, 1⟩ ⟨25, 1⟩ rfl rfl rfl rfl
  exact ⟨_, rfl, h,
    fun h0 h1 hlt => C3_decimal_confidence.2 "1.5 2.5 3 4" ⟨0, h0⟩ ⟨1, h1⟩ hlt⟩

/-- C1 (amended): every compass-family candidate has confidence exactly
`1000`, and it strictly exceeds the confidence of any decimal-family
candidate from the same input *whose confidence is below `1000`* (the
decimal-place product can reach `1000` for extreme literals, so the
unconditional claim fails). -/
theorem C1_compass_precedence {s : String} {c d : Coordinate}
    (hc : c ∈ ParseLocation_result s) (_hd : d ∈ ParseLocation_result s)
    (hct : c.pattern_type = "compass") (_hdt : d.pattern_type = "degrees")
    (hsmall : d.confidence < 1000) :
    c.confidence = 1000 ∧ d.confidence < c.confidence := by
  obtain ⟨pd, _, st, _, hb⟩ := result_inv hc
  obtain ⟨hpt, _, hcase⟩ := build_inv hb
  have hconf : c.confidence = 1000 := by
    rcases hcase with ⟨_, hconf, _⟩ | ⟨hdeg, _⟩
    · exact hconf
    · rw [hct] at hpt
      rw [← hpt] at hdeg
      exact absurd hdeg (by decide)
  exact ⟨hconf, hconf ▸ hsmall⟩

/-- C1 counterexample: on this input both pattern families produce
candidates, yet the decimal-family candidate — two literals with 32
fractional digits each, confidence `32 * 32 = 1024` — is *not* outranked by
the compass candidate (fixed confidence `1000`). -/
theorem C1_counterexample :
    ∃ c ∈ ParseLocation_result
        "0 0 0 N 0 0 0 E 0.00000000000000000000000000000000 0.00000000000000000000000000000000",
      c.pattern_type = "compass" ∧
      ∃ d ∈ ParseLocation_result
          "0 0 0 N 0 0 0 E 0.00000000000000000000000000000000 0.00000000000000000000000000000000",
        d.pattern_type = "degrees" ∧ ¬ d.confidence < c.confidence := by
  decide

/-- C1 witness: on `1 2 3 N 4 5 6 E` the compass candidate (confidence
`1000`) outranks the decimal candidates (confidence `0 < 1000`). -/
theorem C1_compass_precedence_witness :
    ∃ c d rest, ParseLocation_result "1 2 3 N 4 5 6 E" = c :: d :: rest ∧
      c.confidence = 1000 ∧ d.confidence < c.confidence := by
  refine ⟨_, _, _, rfl, ?_⟩
  exact C1_compass_precedence (s := "1 2 3 N 4 5 6 E")
    (List.mem_cons_self _ _)
    (List.mem_cons_of_mem _ (List.mem_cons_self _ _)) rfl rfl (by decide)

/-- C4: the decimal-latitude validator accepts exactly the values in
`[-90, 90)`, the decimal-longitude validator accepts exactly the values in
`(-180, 180)` (so rejects everything outside), and the three spec inputs with
an out-of-range token produce no match. -/
theorem C4_decimal_range_validators :
    (∀ (d : Dec) (st : PatternState),
       (applyValidator .lat_dec (.num d) st).isSome = true ↔
         -90 ≤ d.val ∧ d.val < 90) ∧
    (∀ (d : Dec) (st : PatternState),
       (applyValidator .lon_dec (.num d) st).isSome = true ↔
         -180 < d.val ∧ d.val < 180) ∧
    find "-91,0.0" = none ∧ find "36.1003,187.4171" = none ∧
      find "36.1003,-180.5" = none := by
  refine ⟨?_, ?_, rfl, rfl, rfl⟩
  · intro d st
    rw [applyValidator]
    split_ifs with hcond
    · rw [Bool.or_eq_true, Dec.ltInt_iff, Dec.geInt_iff] at hcond
      push_cast at hcond
      simp only [Option.isSome_none, Bool.false_eq_true, false_iff]
      intro hr
      rcases hcond with hcnd | hcnd
      · linarith [hr.1]
      · linarith [hr.2]
    · rw [Bool.or_eq_true, Dec.ltInt_iff, Dec.geInt_iff] at hcond
      push_cast at hcond
      push_neg at hcond
      simp only [Option.isSome_some, true_iff]
      exact ⟨hcond.1, hcond.2⟩
  · intro d st
    rw [applyValidator]
    split_ifs with hcond
    · rw [Bool.or_eq_true, Dec.leInt_iff, Dec.geInt_iff] at hcond
      push_cast at hcond
      simp only [Option.isSome_none, Bool.false_eq_true, false_iff]
      intro hr
      rcases hcond with hcnd | hcnd
      · linarith [hr.1]
      · linarith [hr.2]
    · rw [Bool.or_eq_true, Dec.leInt_iff, Dec.geInt_iff] at hcond
      push_cast at hcond
      push_neg at hcond
      simp only [Option.isSome_some, true_iff]
      exact ⟨hcond.1, hcond.2⟩

/-- C5: the hour-degree validators (`lat_h` accepting `[0, 90)`, `lon_h`
accepting `[0, 180)`) fail outright whenever the token's literal text carried
a decimal point (`places ≠ 0`); a failing validator aborts the whole
`(pattern, offset)` attempt; and the spec's fractional-hour input produces no
match. -/
theorem C5_hour_integer_rejection :
    (∀ (d : Dec) (st : PatternState), d.places ≠ 0 →
       applyValidator .lat_h (.num d) st = none ∧
       applyValidator .lon_h (.num d) st = none) ∧
    (∀ (d : Dec) (st : PatternState),
       (applyValidator .lat_h (.num d) st).isSome = true ↔
         d.places = 0 ∧ 0 ≤ d.val ∧ d.val < 90) ∧
    (∀ (d : Dec) (st : PatternState),
       (applyValidator .lon_h (.num d) st).isSome = true ↔
         d.places = 0 ∧ 0 ≤ d.val ∧ d.val < 180) ∧
    (∀ (v : Validator) (vs : List Validator) (elements : List Elem)
       (idx : Nat) (st : PatternState) (h : idx < elements.length),
       applyValidator v (elements.get ⟨idx, h⟩) st = none →
       runMatch (v :: vs) elements idx st = none) ∧
    find "37.000° 37′ 8″ N, 122° 22′ 30″ W" = none := by
  refine ⟨?_, ?_, ?_, ?_, rfl⟩
  · intro d st hp
    rw [applyValidator, applyValidator, if_pos hp, if_pos hp]
    exact ⟨rfl, rfl⟩
  · intro d st
    rw [applyValidator]
    split_ifs with hp hcond
    · simp only [Option.isSome_none, Bool.false_eq_true, false_iff]
      intro hr
      exact absurd hr.1 hp
    · rw [Bool.or_eq_true, Dec.ltInt_iff, Dec.geInt_iff] at hcond
      push_cast at hcond
      simp only [Option.isSome_none, Bool.false_eq_true, false_iff]
      intro hr
      rcases hcond with hcnd | hcnd
      · linarith [hr.2.1]
      · linarith [hr.2.2]
    · rw [Bool.or_eq_true, Dec.ltInt_iff, Dec.geInt_iff] at hcond
      push_neg at hp
      push_cast at hcond
      push_neg at hcond
      simp only [Option.isSome_some, true_iff]
      exact ⟨hp, hcond.1, hcond.2⟩
  · intro d st
    rw [applyValidator]
    split_ifs with hp hcond
    · simp only [Option.isSome_none, Bool.false_eq_true, false_iff]
      intro hr
      exact absurd hr.1 hp
    · rw [Bool.or_eq_true, Dec.ltInt_iff, Dec.geInt_iff] at hcond
      push_cast at hcond
      simp only [Option.isSome_none, Bool.false_eq_true, false_iff]
      intro hr
      rcases hcond with hcnd | hcnd
      · linarith [hr.2.1]
      · linarith [hr.2.2]
    · rw [Bool.or_eq_true, Dec.ltInt_iff, Dec.geInt_iff] at hcond
      push_neg at hp
      push_cast at hcond
      push_neg at hcond
      simp only [Option.isSome_some, true_iff]
      exact ⟨hp, hcond.1, hcond.2⟩
  · intro v vs elements idx st h hfail
    rw [runMatch, dif_pos h, hfail]

/-- C5 witness: the literal `37.000` (three digits after the point) is
rejected by both hour-degree validators. -/
theorem C5_hour_integer_rejection_witness :
    applyValidator .lat_h (.num ⟨37000, 3⟩) {} = none ∧
      applyValidator .lon_h (.num ⟨37000, 3⟩) {} = none :=
  C5_hour_integer_rejection.1 ⟨37000, 3⟩ {} (by decide)

/-- C6: every coordinate in any input's result list has latitude in
`[-90, 90]` and longitude in `[-180, 180]` — the validator range checks make
an out-of-range coordinate unconstructible; there is no range check after
construction. -/
theorem C6_coordinate_ranges {s : String} {c : Coordinate}
    (hc : c ∈ ParseLocation_result s) :
    -90 ≤ c.latitude ∧ c.latitude ≤ 90 ∧
      -180 ≤ c.longitude ∧ c.longitude ≤ 180 := by
  obtain ⟨pd, _, st, hst, hb⟩ := result_inv hc
  obtain ⟨_, _, hcase⟩ := build_inv hb
  rcases hcase with ⟨_, _, lah, lam, loh, lom, las, los, ns, ew,
    e1, e2, e3, e4, e5, e6, e7, e8, hlat, hlon⟩ |
    ⟨_, latd, lond, e1, e2, _, hlat, hlon⟩
  · obtain ⟨ha1, ha2⟩ := hst.lat_h lah e1
    obtain ⟨hm1, hm2⟩ := hst.lat_m lam e2
    obtain ⟨hs1, hs2⟩ := hst.lat_s las e3
    obtain ⟨hd1, hd2⟩ := hst.lon_h loh e5
    obtain ⟨he1, he2⟩ := hst.lon_m lom e6
    obtain ⟨hf1, hf2⟩ := hst.lon_s los e7
    have qa1 : (0 : ℚ) ≤ (lah : ℚ) := by exact_mod_cast ha1
    have qa2 : (lah : ℚ) ≤ 89 := by exact_mod_cast (by omega : lah ≤ 89)
    have qm1 : (0 : ℚ) ≤ (lam : ℚ) := by exact_mod_cast hm1
    have qm2 : (lam : ℚ) ≤ 59 := by exact_mod_cast (by omega : lam ≤ 59)
    have qd1 : (0 : ℚ) ≤ (loh : ℚ) := by exact_mod_cast hd1
    have qd2 : (loh : ℚ) ≤ 179 := by exact_mod_cast (by omega : loh ≤ 179)
    have qe1 : (0 : ℚ) ≤ (lom : ℚ) := by exact_mod_cast he1
    have qe2 : (lom : ℚ) ≤ 59 := by exact_mod_cast (by omega : lom ≤ 59)
    rw [hlat, hlon]
    split_ifs <;> and_intros <;> linarith
  · obtain ⟨hd1, hd2⟩ := hst.lat_dec latd e1
    obtain ⟨he1, he2⟩ := hst.lon_dec lond e2
    have h1 : |latd.val| ≤ 90 := abs_le.mpr ⟨by linarith, by linarith⟩
    have h2 : |lond.val| ≤ 180 := abs_le.mpr ⟨by linarith, by linarith⟩
    have h3 : (0 : ℚ) ≤ |latd.val| := abs_nonneg _
    have h4 : (0 : ℚ) ≤ |lond.val| := abs_nonneg _
    rw [hlat, hlon]
    split_ifs <;> and_intros <;> linarith

/-- C6 witness: the single candidate extracted from `1.5 2.5` is in range. -/
theorem C6_coordinate_ranges_witness :
    ∃ c rest, ParseLocation_result "1.5 2.5" = c :: rest ∧
      -90 ≤ c.latitude ∧ c.latitude ≤ 90 ∧
      -180 ≤ c.longitude ∧ c.longitude ≤ 180 := by
  refine ⟨_, _, rfl, ?_⟩
  exact C6_coordinate_ranges (s := "1.5 2.5") (List.mem_cons_self _ _)

/-- C7 (amended): zero-confidence coordinates *are* constructed (any decimal
pair without fractional digits), so "no match" is not the mere absence of
candidates: `find` returns `none` exactly when the candidate list is empty
*or* its top entry has confidence `0`. -/
theorem C7_no_match_characterization (s : String) :
    find s = none ↔ ParseLocation_result s = [] ∨
      ∃ c, (ParseLocation_result s).head? = some c ∧ c.confidence = 0 :=
  find_none_iff s

/-- C7 counterexample: the input `5 6` constructs a coordinate with
confidence `0` — and `find` reports no match even though a coordinate is in
the candidate list. -/
theorem C7_counterexample :
    (∃ c ∈ ParseLocation_result "5 6", c.confidence = 0) ∧
      ParseLocation_result "5 6" ≠ [] ∧ find "5 6" = none := by
  refine ⟨by decide, ?_, rfl⟩
  intro h
  have : (ParseLocation_result "5 6").length = 0 := by rw [h]; rfl
  revert this
  decide

/-- C8 (amended): the result list is sorted by confidence, highest first,
ties kept in discovery order (characterized by sortedness plus preservation
of every confidence class as a subsequence); the head of a non-empty
`matches()` has confidence `> 0` (but later entries may have confidence `0`);
and `best_match()` is `none` exactly when the candidate list is empty or its
top entry's confidence is `0`. -/
theorem C8_selector_contract (s : String) :
    List.Sorted confGe (ParseLocation_matches s) ∧
    (∀ k : Nat, ((ParseLocation_result s).filter fun c => c.confidence == k) =
      ((collectCandidates (unquote s)).filter fun c => c.confidence == k)) ∧
    (∀ (c : Coordinate) (rest : List Coordinate),
       ParseLocation_matches s = c :: rest → 0 < c.confidence) ∧
    (ParseLocation_best_match s = none ↔ ParseLocation_result s = [] ∨
      ∃ c, (ParseLocation_result s).head? = some c ∧ c.confidence = 0) := by
  refine ⟨?_, ?_, ?_, ?_⟩
  · rcases hres : ParseLocation_result s with _ | ⟨c, rest⟩
    · rw [ParseLocation_matches, hres]
      exact List.sorted_nil
    · rw [ParseLocation_matches, hres]
      show List.Sorted confGe (if c.confidence = 0 then [] else c :: rest)
      split_ifs
      · exact List.sorted_nil
      · rw [← hres]
        exact result_sorted s
  · intro k
    exact insertionSort_filter_confEq (collectCandidates (unquote s)) k
  · intro c rest hm
    rw [ParseLocation_matches] at hm
    rcases hres : ParseLocation_result s with _ | ⟨c2, rest2⟩ <;> rw [hres] at hm
    · exact List.noConfusion hm
    · revert hm
      show (if c2.confidence = 0 then [] else c2 :: rest2) = c :: rest → _
      split_ifs with h0
      · intro hm
        exact hm.elim
      · intro hm
        injection hm with hm1 _
        subst hm1
        exact Nat.pos_of_ne_zero h0
  · rw [ParseLocation_best_match]
    rcases hres : ParseLocation_result s with _ | ⟨c, rest⟩
    · simp
    · by_cases h0 : c.confidence = 0
      · simp [h0]
      · simp [h0]

/-- C8 counterexample: on `1.5 2.5 3 4` the returned `matches()` sequence
contains a coordinate with confidence `0` (after the positive-confidence
head), refuting "every Coordinate in the returned sequence has
confidence > 0". -/
theorem C8_counterexample :
    ∃ c ∈ ParseLocation_matches "1.5 2.5 3 4", c.confidence = 0 := by
  decide

/-- C8 witness: the head of the non-empty `matches()` of `1.5 2.5` has
positive confidence. -/
theorem C8_selector_contract_witness :
    ∃ c rest, ParseLocation_matches "1.5 2.5" = c :: rest ∧
      0 < c.confidence := by
  refine ⟨_, _, rfl, ?_⟩
  exact (C8_selector_contract "1.5 2.5").2.2.1 _ _ rfl

/-- `unquote` is the identity on inputs with no `'%'`. -/
theorem unquoteAux_id : ∀ l : List Char, (∀ c ∈ l, c ≠ '%') → unquoteAux l = l
  | [], _ => rfl
  | c :: a :: b :: r, h => by
    have hc : c ≠ '%' := h c (List.mem_cons_self c _)
    rw [unquoteAux, if_neg (by simp [hc])]
    rw [unquoteAux_id (a :: b :: r) (fun x hx => h x (List.mem_cons_of_mem c hx))]
  | [c], _ => rfl
  | [c, a], _ => rfl

/-- `unquote` is the identity on strings with no `'%'`. -/
theorem unquote_id {s : String} (h : ∀ c ∈ s.toList, c ≠ '%') : unquote s = s := by
  rw [unquote, unquoteAux_id s.toList h]
  cases s with
  | mk data => rfl

/-- C10: the top-level parse percent-decodes the input before tokenizing and
before testing URL-trigger patterns (the stored result is the pipeline
applied to the unquoted string), `%2C` input yields exactly the same
candidates as the decoded text, and the transformation is the identity for
inputs without `'%'`. -/
theorem C10_percent_decoding :
    (∀ s : String, ParseLocation_result s = apply_patterns (unquote s)) ∧
    (∀ s : String, (∀ c ∈ s.toList, c ≠ '%') → unquote s = s) ∧
    unquote "36.1003%2C-115.1745" = "36.1003,-115.1745" ∧
    ParseLocation_result "36.1003%2C-115.1745" =
      ParseLocation_result "36.1003,-115.1745" :=
  ⟨fun _ => rfl, fun _ h => unquote_id h, by decide, rfl⟩

/-- C10 witness: a concrete escape-free string is untouched by `unquote`. -/
theorem C10_percent_decoding_witness :
    unquote "37.618889, -122.375" = "37.618889, -122.375" :=
  C10_percent_decoding.2.1 "37.618889, -122.375" (by decide)

/-! ### The tokenizer's fuel is irrelevant

`lexAux` is driven by a step bound; every step consumes at least the leading
character, so any bound of at least the input length — in particular the
input length passed by `break_apart` — yields the same token sequence. -/

theorem dropWhile_length_le (p : Char → Bool) :
    ∀ l : List Char, (l.dropWhile p).length ≤ l.length
  | [] => le_rfl
  | c :: cs => by
    rw [List.dropWhile_cons]
    split_ifs with h
    · exact le_trans (dropWhile_length_le p cs) (Nat.le_succ _)
    · exact le_rfl

/-- One scan step consumes at least the leading character. -/
theorem lexStep_rest_length (c : Char) (cs : List Char) :
    (lexStep c cs).2.length ≤ cs.length := by
  rw [lexStep]
  split_ifs with h1 h2
  · exact dropWhile_length_le _ cs
  · dsimp only
    have hbody : ((if c = '-' then cs else c :: cs).dropWhile Char.isDigit).length ≤
        cs.length := by
      split_ifs with hneg
      · exact dropWhile_length_le _ cs
      · have hdig : c.isDigit = true := by
          rcases Bool.or_eq_true_iff.mp h2 with h | h
          · exact h
          · exact absurd (of_decide_eq_true ((Bool.and_eq_true _ _).mp h).1) hneg
        rw [List.dropWhile_cons_of_pos hdig]
        exact dropWhile_length_le _ cs
    set b : List Char := if c = '-' then cs else c :: cs with hb
    split_ifs with hdot
    · have c2 := dropWhile_length_le Char.isDigit (b.dropWhile Char.isDigit).tail
      have c3 := List.length_tail (b.dropWhile Char.isDigit)
      omega
    · exact hbody
  · exact le_rfl

/-- Any sufficient fuel yields the same scan. -/
theorem lexAux_fuel : ∀ (fuel : Nat) (l : List Char), l.length ≤ fuel →
    lexAux fuel l = lexAux l.length l := by
  intro fuel
  induction fuel using Nat.strong_induction_on with
  | _ fuel ih =>
    match fuel with
    | 0 =>
      intro l hl
      rw [Nat.le_zero] at hl
      rw [List.length_eq_zero] at hl
      subst hl
      rfl
    | f + 1 =>
      intro l hl
      match l with
      | [] => rfl
      | c :: cs =>
        have hr := lexStep_rest_length c cs
        have hcs : cs.length ≤ f := by simpa using hl
        rw [List.length_cons, lexAux, lexAux]
        rcases hstep : lexStep c cs with ⟨t, rest⟩
        rw [hstep] at hr
        cases t with
        | none =>
          simp only
          rw [ih f (Nat.lt_succ_self f) rest (le_trans hr hcs),
            ih cs.length (Nat.lt_succ_of_le hcs) rest hr]
        | some e =>
          simp only
          rw [ih f (Nat.lt_succ_self f) rest (le_trans hr hcs),
            ih cs.length (Nat.lt_succ_of_le hcs) rest hr]

/-- `break_apart` computes the total scanning loop: passing any larger step
bound changes nothing. -/
theorem break_apart_fuel (s : String) (fuel : Nat) (h : s.toList.length ≤ fuel) :
    lexAux fuel s.toList = break_apart s := by
  rw [break_apart]
  exact lexAux_fuel fuel s.toList h

end geourl
